import Mathlib

/-!
Verification development for the weekly timetable synthesizer of the
Time-Table-Management repository (src/src/pages/Timetable.tsx, the
`generateTimetableMutation.mutationFn` scheduling core).

The scheduler is shallowly embedded as pure Lean functions:
* ids (faculty, classroom, subject, section) are `Nat`;
* DB time strings are `String` (the code compares them against the ten
  hourly slot labels);
* the three mutable per-day grids (`schedule`, `facultySchedule`,
  `classroomSchedule`) become a `SchedState` of total functions, with JS
  `Set`s modelled as lists under membership;
* every `array.sort(() => Math.random() - 0.5)` call is modelled as an
  application of an explicit shuffle oracle (`RandomSource`); JS sort with
  a random comparator always returns some permutation of its input, which
  the predicate `ValidRand` captures;
* the `while` loop of the lecture phase is split into `lectureInner`
  (the consecutive iterations up to and including the next committed
  session; structurally recursive on a fuel that equals the length of the
  candidate-day list, which strictly shrinks at each non-committing
  iteration) and `lectureOuter` (structurally recursive on the remaining
  hours-to-schedule, which strictly shrink at each committed session);
  the two components together replay the JS loop iteration by iteration.
-/

/-- The ten hourly slot labels (`timeSlots` in the source). -/
def timeSlots : List String :=
  ["08:00", "09:00", "10:00", "11:00", "12:00", "13:00", "14:00", "15:00", "16:00", "17:00"]

/-- The five weekdays (`daysOfWeek` in the source). -/
def daysOfWeek : List String :=
  ["Monday", "Tuesday", "Wednesday", "Thursday", "Friday"]

/-- Index of the 12:00 break slot (`BREAK_START` in the source). -/
def BREAK_START : Nat := 4

/-- A subject row as consumed by the scheduler (id, weekly_hours, has_lab,
has_tutorial; the year-level filter is applied by the DB query that
produced the list). -/
structure Subject where
  id : Nat
  weekly_hours : Nat
  has_lab : Bool
  has_tutorial : Bool
deriving DecidableEq, Repr

/-- A faculty_subjects row: `subject_types` is nullable in the DB, and the
code guards with `fs.subject_types?.includes(ty)`. -/
structure FacultySubject where
  faculty_id : Nat
  subject_id : Nat
  subject_types : Option (List String)
deriving DecidableEq, Repr

/-- A classroom row (only the id is consumed by the scheduling core; the
three room lists are already filtered by `room_type` by their queries). -/
structure Classroom where
  id : Nat
deriving DecidableEq, Repr

/-- An existing timetable row of another section, as consumed by the
grid-seeding loop (only these five fields are read there). -/
structure ExistingEntry where
  faculty_id : Nat
  classroom_id : Nat
  day_of_week : String
  start_time : String
  end_time : String
deriving DecidableEq, Repr

/-- A generated timetable entry, mirroring the object literals pushed onto
`timetableEntries`. -/
structure Entry where
  section_id : Nat
  subject_id : Nat
  faculty_id : Nat
  classroom_id : Nat
  day_of_week : String
  start_time : String
  end_time : String
  subject_type : String
  batch_number : Option Nat
deriving DecidableEq, Repr

/-- A batch label `{number, name}` as built by `Array.from({length: 3}, ...)`. -/
structure Batch where
  number : Nat
  name : String
deriving DecidableEq, Repr

/-- The shuffle oracle standing for the ambient `Math.random()`-driven
`sort` calls: `days` is applied once to `daysOfWeek`, `times` at the n-th
call of `getRandomStartTimes` to the base start-time list, `batches` at
the n-th `[...batches].sort(...)` to the batch list. -/
structure RandomSource where
  days : List String → List String
  times : Nat → List Nat → List Nat
  batches : Nat → List Batch → List Batch

/-- JS `Array.prototype.sort` returns a permutation of its input even when
the comparator is inconsistent, so the oracle calls reachable in the
program always yield permutations. -/
def ValidRand (r : RandomSource) : Prop :=
  (∀ l, (r.days l).Perm l) ∧ (∀ n l, (r.times n l).Perm l) ∧
    (∀ n l, (r.batches n l).Perm l)

/-- The three per-day grids: `schedule` records whether the target
section's own grid cell is occupied (the code stores the entry object and
only ever tests it against `null`), `facultySched`/`classroomSched` are
the busy-id sets per (day, slot). -/
structure SchedState where
  schedule : String → Nat → Bool
  facultySched : String → Nat → List Nat
  classroomSched : String → Nat → List Nat

/-- Grids before seeding: every cell free / empty. -/
def emptySched : SchedState :=
  { schedule := fun _ _ => false
    facultySched := fun _ _ => []
    classroomSched := fun _ _ => [] }

/-- The slot indices visited by a JS loop
`for (i = t; i < t + d && i < timeSlots.length; i++)`. -/
def slotRange (t d : Nat) : List Nat :=
  (List.range' t d).filter (· < timeSlots.length)

/-- `isSlotAvailable` of the source: every visited cell of the section's
own grid is free, and `t + d <= timeSlots.length`. -/
def isSlotAvailable (s : SchedState) (day : String) (t d : Nat) : Bool :=
  (slotRange t d).all (fun i => !s.schedule day i) && decide (t + d ≤ timeSlots.length)

/-- `isFacultyAvailable` of the source (note: no end-bound check here). -/
def isFacultyAvailable (s : SchedState) (fid : Nat) (day : String) (t d : Nat) : Bool :=
  (slotRange t d).all (fun i => !(s.facultySched day i).contains fid)

/-- `isClassroomAvailable` of the source. -/
def isClassroomAvailable (s : SchedState) (cid : Nat) (day : String) (t d : Nat) : Bool :=
  (slotRange t d).all (fun i => !(s.classroomSched day i).contains cid)

/-- Add busy marks for one (day, slot) cell to the faculty and classroom
grids (one iteration of the seeding loop body). -/
def addBusy (s : SchedState) (day : String) (i fid cid : Nat) : SchedState :=
  { s with
    facultySched := fun d j =>
      if d = day ∧ j = i then fid :: s.facultySched d j else s.facultySched d j
    classroomSched := fun d j =>
      if d = day ∧ j = i then cid :: s.classroomSched d j else s.classroomSched d j }

/-- One iteration of the `markSlotOccupied` loop body: occupy the section
grid cell and add both busy marks. -/
def markOne (s : SchedState) (day : String) (i fid cid : Nat) : SchedState :=
  { addBusy s day i fid cid with
    schedule := fun d j => if d = day ∧ j = i then true else s.schedule d j }

/-- `markSlotOccupied` of the source. -/
def markSlotOccupied (s : SchedState) (day : String) (t d fid cid : Nat) : SchedState :=
  (slotRange t d).foldl (fun acc i => markOne acc day i fid cid) s

/-- Scan of `timeSlots` with running index, giving `timeSlots.indexOf t`
(`none` standing for JS `-1`). -/
def idxOfAux (t : String) : List String → Nat → Option Nat
  | [], _ => none
  | s :: rest, k => if s == t then some k else idxOfAux t rest (k + 1)

/-- `getTimeIndex` of the source: `timeSlots.indexOf(time)`. -/
def getTimeIndex (t : String) : Option Nat := idxOfAux t timeSlots 0

/-- Seed the faculty and classroom grids from one existing entry of
another section (body of the `existingTimetable.forEach` loop): the times
are truncated to `HH:MM`; an entry whose truncated start or end is not a
slot label is skipped entirely. -/
def seedEntry (s : SchedState) (x : ExistingEntry) : SchedState :=
  match getTimeIndex (x.start_time.take 5), getTimeIndex (x.end_time.take 5) with
  | some si, some ei =>
      (slotRange si (ei - si)).foldl
        (fun acc i => addBusy acc x.day_of_week i x.faculty_id x.classroom_id) s
  | _, _ => s

/-- Seed the grids from all existing entries of other sections. -/
def seedAll (old : List ExistingEntry) : SchedState :=
  old.foldl seedEntry emptySched

/-- `isBreakTime` of the source. -/
def isBreakTime (t : Nat) : Bool := t == BREAK_START

/-- The `spansBreak` check of `findBestTimeSlot`: some slot of
`[t, t + d)` is the break slot. -/
def spansBreak (t d : Nat) : Bool := (List.range' t d).any isBreakTime

/-- The per-candidate acceptance test of `findBestTimeSlot`: not starting
at the break, not spanning the break, and all three availability checks. -/
def slotOk (s : SchedState) (day : String) (d fid cid t : Nat) : Bool :=
  !isBreakTime t && !spansBreak t d && isSlotAvailable s day t d &&
    isFacultyAvailable s fid day t d && isClassroomAvailable s cid day t d

/-- `findBestTimeSlot` of the source: first scan the shuffled candidate
list, then fall back to `0 ≤ i < timeSlots.length - duration`. -/
def findBestTimeSlot (s : SchedState) (day : String) (d fid cid : Nat)
    (timesToTry : List Nat) : Option Nat :=
  match timesToTry.find? (slotOk s day d fid cid) with
  | some t => some t
  | none => (List.range (timeSlots.length - d)).find? (slotOk s day d fid cid)

/-- The base list handed to each `getRandomStartTimes` call (break index 4
already removed). -/
def startTimesBase : List Nat := [0, 1, 2, 3, 5, 6, 7, 8, 9]

/-- The mutable scheduling state threaded through the run: the grids, the
generated-entry list, `dailySubjectLectures` (subject ids per day), the
three room-rotation cursors, `facultyUsageCount` (defaulting to 0 via
`|| 0`), `subjectWeeklyHours`, and the call counters of the two shuffle
oracles. -/
structure GenState where
  sched : SchedState
  entries : List Entry
  daily : String → List Nat
  lectureRoomIndex : Nat
  labRoomIndex : Nat
  tutorialRoomIndex : Nat
  usage : Nat → Nat
  swh : Nat → Nat
  timesCtr : Nat
  batchCtr : Nat

/-- Slot label of index `i`, with the `|| '18:00'` fallback the code uses
for the end time one past the last listed slot.  Start indices are always
at most 9 (enforced by `isSlotAvailable`), so for them the fallback is
never taken and this equals the plain `timeSlots[timeIndex]`. -/
def slotTime (i : Nat) : String := timeSlots.getD i "18:00"

/-- Build the entry object literal pushed onto `timetableEntries`. -/
def mkEntry (sectionId subjectId fid cid : Nat) (day : String) (t d : Nat)
    (ty : String) (batch : Option Nat) : Entry :=
  { section_id := sectionId
    subject_id := subjectId
    faculty_id := fid
    classroom_id := cid
    day_of_week := day
    start_time := slotTime t
    end_time := slotTime (t + d)
    subject_type := ty
    batch_number := batch }

/-- The room-rotation loop
`for (i = 0; i < rooms.length; i++) { roomIndexToTry = (startIdx + i) % rooms.length; ... }`:
each probed room triggers one `getRandomStartTimes()` call (hence the
counter), and on the first room with a feasible slot returns (room, slot,
next cursor value). -/
def tryRoomsAux (s : SchedState) (day : String) (dur fid : Nat)
    (rooms : List Classroom) (startIdx : Nat) (times : Nat → List Nat) :
    List Nat → Nat → Option (Classroom × Nat × Nat) × Nat
  | [], ctr => (none, ctr)
  | i :: rest, ctr =>
    let idx := (startIdx + i) % rooms.length
    match rooms[idx]? with
    | none => (none, ctr)
    | some room =>
      match findBestTimeSlot s day dur fid room.id (times ctr) with
      | some t => (some (room, t, (idx + 1) % rooms.length), ctr + 1)
      | none => tryRoomsAux s day dur fid rooms startIdx times rest (ctr + 1)

/-- Entry point of the room-rotation loop. -/
def tryRooms (s : SchedState) (day : String) (dur fid : Nat)
    (rooms : List Classroom) (startIdx : Nat) (times : Nat → List Nat)
    (ctr : Nat) : Option (Classroom × Nat × Nat) × Nat :=
  tryRoomsAux s day dur fid rooms startIdx times (List.range rooms.length) ctr

/-- `qualified.reduce((leastUsed, current) => currentCount < leastUsedCount ? current : leastUsed)`:
left fold keeping the earlier element on ties. -/
def selectLeastLoaded (u : Nat → Nat) (f : FacultySubject)
    (rest : List FacultySubject) : FacultySubject :=
  rest.foldl (fun least cur =>
    if u cur.faculty_id < u least.faculty_id then cur else least) f

/-- `fs.subject_types?.includes(ty)` with the nullable column. -/
def fsHasType (fs : FacultySubject) (ty : String) : Bool :=
  match fs.subject_types with
  | some ts => ts.contains ty
  | none => false

/-- Result of one burst of lecture-loop iterations: either the loop ended
without committing a session, or a session was committed and the burst
ends with the updated state and remaining candidate days. -/
inductive InnerRes where
  | noCommit (st : GenState)
  | committed (st : GenState) (days : List String)

/-- State carried by an `InnerRes`. -/
def InnerRes.state : InnerRes → GenState
  | .noCommit st => st
  | .committed st _ => st

/-- Consecutive iterations of the lecture `while` loop up to and including
the next committed session.  `hours` is the (fixed during the burst)
`hoursScheduled`; the fuel argument is called with `days.length` and each
non-committing iteration removes one day, so the fuel mirrors the
shrinking candidate list exactly and runs out precisely when the list is
empty. -/
def lectureInner (sectionId subjectId fid : Nat) (rooms : List Classroom)
    (times : Nat → List Nat) (hours : Nat) :
    Nat → GenState → List String → InnerRes
  | 0, st, _ => .noCommit st
  | fuel + 1, st, days =>
    if 0 < days.length then
      let dayIndex := hours % days.length
      let day := days.getD dayIndex ""
      if (st.daily day).contains subjectId then
        lectureInner sectionId subjectId fid rooms times hours fuel st
          (days.eraseIdx dayIndex)
      else
        match tryRooms st.sched day 1 fid rooms st.lectureRoomIndex times st.timesCtr with
        | (none, ctr') =>
          lectureInner sectionId subjectId fid rooms times hours fuel
            { st with timesCtr := ctr' } (days.eraseIdx dayIndex)
        | (some (room, t, idx'), ctr') =>
          let e := mkEntry sectionId subjectId fid room.id day t 1 "lecture" none
          let st' : GenState :=
            { st with
              sched := markSlotOccupied st.sched day t 1 fid room.id
              entries := st.entries ++ [e]
              daily := fun d2 =>
                if d2 = day then subjectId :: st.daily d2 else st.daily d2
              usage := fun f2 => if f2 = fid then st.usage f2 + 1 else st.usage f2
              swh := fun s2 => if s2 = subjectId then st.swh s2 + 1 else st.swh s2
              lectureRoomIndex := idx'
              timesCtr := ctr' }
          .committed st' (days.eraseIdx dayIndex)
    else .noCommit st

/-- The outer lecture `while` loop: `hl` is `weekly - hours`, so the guard
`hoursScheduled < weeklyHours` is `hl > 0`; after a committed session the
candidate-day list is refilled (with the days on which this subject has no
lecture yet) exactly when it became empty while hours remain. -/
def lectureOuter (sectionId subjectId fid : Nat) (shuffledDays : List String)
    (rooms : List Classroom) (times : Nat → List Nat) (weekly : Nat) :
    Nat → Nat → GenState → List String → GenState
  | 0, _, st, _ => st
  | hl + 1, hours, st, days =>
    match lectureInner sectionId subjectId fid rooms times hours days.length st days with
    | .noCommit st' => st'
    | .committed st' days' =>
      let days2 :=
        if days'.length = 0 ∧ hours + 1 < weekly then
          days' ++ shuffledDays.filter (fun d2 => !(st'.daily d2).contains subjectId)
        else days'
      lectureOuter sectionId subjectId fid shuffledDays rooms times weekly hl
        (hours + 1) st' days2

/-- Step of Phase 1 (`Step 1: Schedule lectures`) for one subject. -/
def phase1Step (sectionId : Nat) (shuffledDays : List String)
    (fss : List FacultySubject) (rooms : List Classroom)
    (times : Nat → List Nat) (st : GenState) (subject : Subject) : GenState :=
  match fss.filter (fun fs => fs.subject_id == subject.id && fsHasType fs "lecture") with
  | [] => st
  | f :: rest =>
    let fac := selectLeastLoaded st.usage f rest
    lectureOuter sectionId subject.id fac.faculty_id shuffledDays rooms times
      subject.weekly_hours subject.weekly_hours 0 st shuffledDays

/-- The two Phase-2 session kinds share one code shape in the source (the
lab block and the tutorial block differ only in duration, room list,
rotation cursor, label and usage increment). -/
inductive SessionKind where
  | lab
  | tutorial
deriving DecidableEq, Repr

/-- Slot duration of a Phase-2 session (2 for labs, 1 for tutorials),
which is also the amount added to `facultyUsageCount`. -/
def SessionKind.dur : SessionKind → Nat
  | .lab => 2
  | .tutorial => 1

/-- `subject_type` string of a Phase-2 session. -/
def SessionKind.ty : SessionKind → String
  | .lab => "lab"
  | .tutorial => "tutorial"

/-- Which rotation cursor the kind uses. -/
def SessionKind.roomIdx : SessionKind → GenState → Nat
  | .lab, st => st.labRoomIndex
  | .tutorial, st => st.tutorialRoomIndex

/-- Update the kind's rotation cursor. -/
def SessionKind.setRoomIdx : SessionKind → GenState → Nat → GenState
  | .lab, st, i => { st with labRoomIndex := i }
  | .tutorial, st, i => { st with tutorialRoomIndex := i }

/-- The `for (const day of shuffledDays)` loop of a Phase-2 batch: stop at
the first day yielding a room and slot and commit the session there
(`scheduled = true; break`), otherwise fall through to the next day. -/
def tryDaysSession (k : SessionKind) (sectionId subjectId fid : Nat)
    (rooms : List Classroom) (times : Nat → List Nat) (batchNum : Nat) :
    GenState → List String → GenState
  | st, [] => st
  | st, day :: rest =>
    match tryRooms st.sched day k.dur fid rooms (k.roomIdx st) times st.timesCtr with
    | (none, ctr') =>
      tryDaysSession k sectionId subjectId fid rooms times batchNum
        { st with timesCtr := ctr' } rest
    | (some (room, t, idx'), ctr') =>
      let e := mkEntry sectionId subjectId fid room.id day t k.dur k.ty (some batchNum)
      k.setRoomIdx
        { st with
          sched := markSlotOccupied st.sched day t k.dur fid room.id
          entries := st.entries ++ [e]
          usage := fun f2 => if f2 = fid then st.usage f2 + k.dur else st.usage f2
          timesCtr := ctr' }
        idx'

/-- The `for (const batch of shuffledBatches)` loop of a Phase-2 block. -/
def batchLoop (k : SessionKind) (sectionId subjectId fid : Nat)
    (rooms : List Classroom) (times : Nat → List Nat)
    (shuffledDays : List String) : GenState → List Batch → GenState
  | st, [] => st
  | st, b :: rest =>
    batchLoop k sectionId subjectId fid rooms times shuffledDays
      (tryDaysSession k sectionId subjectId fid rooms times b.number st shuffledDays)
      rest

/-- One Phase-2 block (`if (subject.has_lab) { ... }` respectively the
tutorial block) for one subject: qualified faculty via the capability
filter; if none, skip; otherwise pick the least-loaded faculty once for
all three batches, shuffle the batches, and schedule each batch. -/
def phase2Session (k : SessionKind) (sectionId : Nat)
    (shuffledDays : List String) (fss : List FacultySubject)
    (rooms : List Classroom) (times : Nat → List Nat) (batches : List Batch)
    (bshuffle : Nat → List Batch → List Batch) (st : GenState)
    (subject : Subject) : GenState :=
  match fss.filter (fun fs => fs.subject_id == subject.id && fsHasType fs k.ty) with
  | [] => st
  | f :: rest =>
    let fac := selectLeastLoaded st.usage f rest
    let sb := bshuffle st.batchCtr batches
    batchLoop k sectionId subject.id fac.faculty_id rooms times shuffledDays
      { st with batchCtr := st.batchCtr + 1 } sb

/-- Step of Phase 2 (`Step 2: Schedule labs and tutorials`) for one
subject: the lab block, then the tutorial block. -/
def phase2Step (sectionId : Nat) (shuffledDays : List String)
    (fss : List FacultySubject) (labRooms tutRooms : List Classroom)
    (times : Nat → List Nat) (batches : List Batch)
    (bshuffle : Nat → List Batch → List Batch) (st : GenState)
    (subject : Subject) : GenState :=
  let st1 :=
    if subject.has_lab then
      phase2Session .lab sectionId shuffledDays fss labRooms times batches bshuffle st subject
    else st
  if subject.has_tutorial then
    phase2Session .tutorial sectionId shuffledDays fss tutRooms times batches bshuffle st1 subject
  else st1

/-- The three fixed batches `{number: i+1, name: section.name + (i+1)}`. -/
def mkBatches (sectionName : String) : List Batch :=
  (List.range 3).map (fun i => { number := i + 1, name := sectionName ++ toString (i + 1) })

/-- The inputs of one generation run, as returned by the catalog reads
(each list is the respective query result; `existingTimetable` is already
filtered to `section_id ≠ target` by its query). -/
structure GenInputs where
  sectionId : Nat
  sectionName : String
  subjects : List Subject
  facultySubjects : List FacultySubject
  existingTimetable : List ExistingEntry
  lectureClassrooms : List Classroom
  labClassrooms : List Classroom
  tutorialClassrooms : List Classroom

/-- The whole scheduling core, parameterized over the seeded grids and the
three shuffle-oracle components: the fresh state, Phase 1 over all
subjects, then Phase 2 over all subjects. -/
def generateCoreState (sectionId : Nat) (sectionName : String)
    (subjects : List Subject) (fss : List FacultySubject)
    (lectureRooms labRooms tutRooms : List Classroom) (sched0 : SchedState)
    (shuffledDays : List String) (times : Nat → List Nat)
    (bshuffle : Nat → List Batch → List Batch) : GenState :=
  let st0 : GenState :=
    { sched := sched0
      entries := []
      daily := fun _ => []
      lectureRoomIndex := 0
      labRoomIndex := 0
      tutorialRoomIndex := 0
      usage := fun _ => 0
      swh := fun _ => 0
      timesCtr := 0
      batchCtr := 0 }
  let st1 := subjects.foldl (phase1Step sectionId shuffledDays fss lectureRooms times) st0
  subjects.foldl
    (phase2Step sectionId shuffledDays fss labRooms tutRooms times
      (mkBatches sectionName) bshuffle) st1

/-- Final state of one generation run. -/
def generateState (inp : GenInputs) (rand : RandomSource) : GenState :=
  generateCoreState inp.sectionId inp.sectionName inp.subjects inp.facultySubjects
    inp.lectureClassrooms inp.labClassrooms inp.tutorialClassrooms
    (seedAll inp.existingTimetable) (rand.days daysOfWeek)
    (fun n => rand.times n startTimesBase) rand.batches

/-- The entry list produced by one generation run (`timetableEntries`). -/
def generateTimetable (inp : GenInputs) (rand : RandomSource) : List Entry :=
  (generateState inp rand).entries

/-! ### Interval semantics of entry times -/

/-- Slot index of a time label, over the ten slots extended with the
"18:00" end-of-day boundary; unknown labels map past the end (11). -/
def timeToSlot (s : String) : Nat := (timeSlots ++ ["18:00"]).findIdx (· == s)

/-- Start slot index denoted by an entry's `start_time`. -/
def eStart (e : Entry) : Nat := timeToSlot e.start_time

/-- End slot index denoted by an entry's `end_time`. -/
def eEnd (e : Entry) : Nat := timeToSlot e.end_time

/-- The half-open intervals `[a, b)` and `[c, d)` share a point (reducible
so that concrete instances can be decided). -/
abbrev slotsOverlap (a b c d : Nat) : Prop := max a c < min b d

/-- Slot duration of a generated entry as determined by its type:
2 for labs, 1 for lectures and tutorials. -/
def durOf (e : Entry) : Nat := if e.subject_type = "lab" then 2 else 1

/-- The truncated times of an existing entry parse to slot indices
`si`/`ei` (the condition under which the seeding loop processes it);
reducible so that concrete instances can be decided. -/
abbrev OldParsed (x : ExistingEntry) (si ei : Nat) : Prop :=
  getTimeIndex (x.start_time.take 5) = some si ∧
    getTimeIndex (x.end_time.take 5) = some ei

/-! ### Invariants carried through a generation run -/

/-- Pointwise growth of the grids: every busy mark persists. -/
def SchedLE (s s' : SchedState) : Prop :=
  (∀ d i, s.schedule d i = true → s'.schedule d i = true) ∧
    (∀ d i f, f ∈ s.facultySched d i → f ∈ s'.facultySched d i) ∧
    (∀ d i c, c ∈ s.classroomSched d i → c ∈ s'.classroomSched d i)

/-- Every parsed existing entry keeps its busy marks on the grids. -/
def OldMarked (old : List ExistingEntry) (s : SchedState) : Prop :=
  ∀ x ∈ old, ∀ si ei, OldParsed x si ei →
    ∀ i, si ≤ i → i < ei →
      x.faculty_id ∈ s.facultySched x.day_of_week i ∧
        x.classroom_id ∈ s.classroomSched x.day_of_week i

/-- A generated entry decodes to a slot interval of its type's duration,
avoiding the break slot, with all its slots marked on all three grids. -/
def EntryCore (s : SchedState) (e : Entry) : Prop :=
  ∃ t, e.start_time = slotTime t ∧ e.end_time = slotTime (t + durOf e) ∧
    t + durOf e ≤ timeSlots.length ∧
    ∀ i, t ≤ i → i < t + durOf e →
      i ≠ BREAK_START ∧ s.schedule e.day_of_week i = true ∧
        e.faculty_id ∈ s.facultySched e.day_of_week i ∧
        e.classroom_id ∈ s.classroomSched e.day_of_week i

/-- Any two generated entries on the same day occupy disjoint intervals. -/
def NewDisjoint (es : List Entry) : Prop :=
  es.Pairwise (fun e1 e2 => e1.day_of_week = e2.day_of_week →
    ¬ slotsOverlap (eStart e1) (eEnd e1) (eStart e2) (eEnd e2))

/-- No generated entry overlaps a parsed existing entry of another section
that shares its day and its faculty or classroom. -/
def NewOldOk (old : List ExistingEntry) (es : List Entry) : Prop :=
  ∀ e ∈ es, ∀ x ∈ old, ∀ si ei, OldParsed x si ei →
    x.day_of_week = e.day_of_week →
    (x.faculty_id = e.faculty_id → ¬ slotsOverlap (eStart e) (eEnd e) si ei) ∧
      (x.classroom_id = e.classroom_id → ¬ slotsOverlap (eStart e) (eEnd e) si ei)

/-- Every generated lecture entry is recorded in `dailySubjectLectures`. -/
def LecMark (es : List Entry) (daily : String → List Nat) : Prop :=
  ∀ e ∈ es, e.subject_type = "lecture" → e.subject_id ∈ daily e.day_of_week

/-- No two generated lecture entries share a subject and a day. -/
def LecOnce (es : List Entry) : Prop :=
  es.Pairwise (fun e1 e2 =>
    ¬ (e1.subject_type = "lecture" ∧ e2.subject_type = "lecture" ∧
       e1.subject_id = e2.subject_id ∧ e1.day_of_week = e2.day_of_week))

/-- Batch tagging: lectures carry no batch number; every other entry's
batch number comes from some shuffled copy of the batch list. -/
def BatchTag (bshuffle : Nat → List Batch → List Batch) (batches : List Batch)
    (es : List Entry) : Prop :=
  ∀ e ∈ es,
    (e.subject_type = "lecture" → e.batch_number = none) ∧
      (e.subject_type ≠ "lecture" →
        ∃ k b, b ∈ bshuffle k batches ∧ e.batch_number = some b.number)

/-- The batch-shuffle oracle only rearranges its input (a consequence of
`ValidRand`, and all this development needs from it). -/
def BatchOk (rand : RandomSource) : Prop :=
  ∀ n l b, b ∈ rand.batches n l → b ∈ l

/-- The bundled invariant of a generation run, over the components of the
state the scheduler commits to (grids, entry list, daily lecture marks). -/
structure GInv (old : List ExistingEntry) (bshuffle : Nat → List Batch → List Batch)
    (batches : List Batch) (s : SchedState) (es : List Entry)
    (daily : String → List Nat) : Prop where
  oldM : OldMarked old s
  newM : ∀ e ∈ es, EntryCore s e
  disj : NewDisjoint es
  newOld : NewOldOk old es
  lecM : LecMark es daily
  lecOnce : LecOnce es
  batchTag : BatchTag bshuffle batches es

/-! ### The surrounding mutation sequence (delete, reads, insert) -/

/-- A sections row (only `name` and `year_level` reach the scheduler). -/
structure SectionRec where
  name : String
  year_level : Nat
deriving DecidableEq, Repr

/-- A database mutation issued by the run. -/
inductive DBOp where
  | deleteSection (sectionId : Nat)
  | insertEntries (es : List Entry)
deriving DecidableEq, Repr

/-- Whether an `Except` result is an error. -/
def isErr {α : Type} : Except String α → Bool
  | .error _ => true
  | .ok _ => false

/-- The results the external store hands to each awaited call of the
mutation, in program order.  `subjectsRes` is the result of the
already-year-level-filtered query, the three room queries are filtered by
room type (the code's `|| []` null-coalescing is absorbed into the list). -/
structure ReadResults where
  sectionRes : Except String SectionRec
  subjectsRes : Except String (List Subject)
  fsRes : Except String (List FacultySubject)
  existingRes : Except String (List ExistingEntry)
  lectureRoomsRes : Except String (List Classroom)
  labRoomsRes : Except String (List Classroom)
  tutorialRoomsRes : Except String (List Classroom)
  insertRes : Except String Unit

/-- The effect sequence of `generateTimetableMutation.mutationFn`: the
delete of the target section's entries is issued first (its own error is
not even checked), then the reads are awaited in order, each `throw`
aborting the rest; if all succeed the scheduler runs and a non-empty
result is inserted.  Returns the issued mutations and the outcome. -/
def mutationFn (sectionId : Nat) (r : ReadResults) (rand : RandomSource) :
    List DBOp × Except String (List Entry) :=
  let ops : List DBOp := [DBOp.deleteSection sectionId]
  match r.sectionRes with
  | .error e => (ops, .error e)
  | .ok sec =>
    match r.subjectsRes with
    | .error e => (ops, .error e)
    | .ok subjects =>
      match r.fsRes with
      | .error e => (ops, .error e)
      | .ok fss =>
        match r.existingRes with
        | .error e => (ops, .error e)
        | .ok existing =>
          match r.lectureRoomsRes, r.labRoomsRes, r.tutorialRoomsRes with
          | .error e, _, _ => (ops, .error e)
          | .ok _, .error e, _ => (ops, .error e)
          | .ok _, .ok _, .error e => (ops, .error e)
          | .ok lr, .ok br, .ok tr =>
            let entries := generateTimetable
              ⟨sectionId, sec.name, subjects, fss, existing, lr, br, tr⟩ rand
            if entries.length > 0 then
              match r.insertRes with
              | .error e => (ops ++ [DBOp.insertEntries entries], .error e)
              | .ok _ => (ops ++ [DBOp.insertEntries entries], .ok entries)
            else (ops, .ok entries)

/-- Some catalog read of the run failed. -/
def ReadFailed (r : ReadResults) : Prop :=
  isErr r.sectionRes = true ∨ isErr r.subjectsRes = true ∨ isErr r.fsRes = true ∨
    isErr r.existingRes = true ∨ isErr r.lectureRoomsRes = true ∨
    isErr r.labRoomsRes = true ∨ isErr r.tutorialRoomsRes = true

/-! ### The claims under test, as stated -/

/-- Common interval view of generated and pre-existing entries: ids, day,
and the slot interval denoted by the times truncated to `HH:MM`. -/
structure SlotEvt where
  faculty_id : Nat
  classroom_id : Nat
  day : String
  lo : Nat
  hi : Nat
deriving DecidableEq, Repr

/-- Interval view of a generated entry. -/
def viewNew (e : Entry) : SlotEvt :=
  ⟨e.faculty_id, e.classroom_id, e.day_of_week,
    timeToSlot (e.start_time.take 5), timeToSlot (e.end_time.take 5)⟩

/-- Interval view of a pre-existing entry of another section. -/
def viewOld (x : ExistingEntry) : SlotEvt :=
  ⟨x.faculty_id, x.classroom_id, x.day_of_week,
    timeToSlot (x.start_time.take 5), timeToSlot (x.end_time.take 5)⟩

/-- Claim C1 as stated: over the generated entries together with all
pre-existing entries of other sections, no two distinct entries with the
same faculty (or classroom) and day have overlapping intervals. -/
def C1Statement : Prop :=
  ∀ inp rand, ValidRand rand →
    ((generateTimetable inp rand).map viewNew ++
        inp.existingTimetable.map viewOld).Pairwise
      (fun a b => a.day = b.day →
        (a.faculty_id = b.faculty_id → ¬ slotsOverlap a.lo a.hi b.lo b.hi) ∧
          (a.classroom_id = b.classroom_id → ¬ slotsOverlap a.lo a.hi b.lo b.hi))

/-- Claim C2 as stated: if any catalog read fails, the run performs no
mutation at all (the target section's schedule remains untouched). -/
def C2Statement : Prop :=
  ∀ sectionId r rand, ReadFailed r → (mutationFn sectionId r rand).1 = []

/-- Claim C3 as stated: the result of a run is independent of the ambient
random choices (there is no seed input, so determinism under a fixed seed
and fixed catalog state says exactly this). -/
def C3Statement : Prop :=
  ∀ inp r1 r2, ValidRand r1 → ValidRand r2 →
    generateTimetable inp r1 = generateTimetable inp r2

/-- Claim C8 as stated: the selected capability row is a least-loaded one,
and among equally loaded candidates the one with the least faculty id. -/
def C8Statement : Prop :=
  ∀ (u : Nat → Nat) (f : FacultySubject) (fs : List FacultySubject),
    (∀ x ∈ f :: fs, u (selectLeastLoaded u f fs).faculty_id ≤ u x.faculty_id) ∧
      (∀ x ∈ f :: fs, u x.faculty_id = u (selectLeastLoaded u f fs).faculty_id →
        (selectLeastLoaded u f fs).faculty_id ≤ x.faculty_id)

/-! ### Concrete scenarios -/

/-- The identity oracle (a valid shuffle outcome). -/
def idRand : RandomSource := ⟨fun l => l, fun _ l => l, fun _ l => l⟩

/-- Oracle whose day shuffle reverses the week. -/
def revRand : RandomSource := ⟨fun l => l.reverse, fun _ l => l, fun _ l => l⟩

/-- Oracle whose start-time shuffle moves 17:00 (index 9) to the front. -/
def ceRand : RandomSource :=
  ⟨fun l => l,
    fun _ l => if l = [0, 1, 2, 3, 5, 6, 7, 8, 9] then [9, 0, 1, 2, 3, 5, 6, 7, 8] else l,
    fun _ l => l⟩

/-- A lecture-only subject with a one-hour weekly target. -/
def subjM : Subject := ⟨1, 1, false, false⟩

/-- Faculty 1 may teach subject 1 lectures. -/
def fsM : FacultySubject := ⟨1, 1, some ["lecture"]⟩

/-- The only lecture room. -/
def roomL : Classroom := ⟨1⟩

/-- Minimal lecture scenario with an empty institution-wide schedule. -/
def inpC3 : GenInputs := ⟨100, "A", [subjM], [fsM], [], [roomL], [], []⟩

/-- A pre-existing entry of another section booking faculty 1 on Monday
17:00–18:00; its end time "18:00" is not among the ten slot labels, so the
seeding loop skips it. -/
def oldX : ExistingEntry := ⟨1, 7, "Monday", "17:00:00", "18:00:00"⟩

/-- The lecture scenario constrained by the unparseable entry `oldX`. -/
def inpCE : GenInputs := ⟨100, "A", [subjM], [fsM], [oldX], [roomL], [], []⟩

/-- A pre-existing entry of another section booking faculty 1 on Monday
08:00–09:00 (both times parse to slot labels). -/
def oldY : ExistingEntry := ⟨1, 7, "Monday", "08:00:00", "09:00:00"⟩

/-- The lecture scenario constrained by the parseable entry `oldY`. -/
def inpW1 : GenInputs := ⟨100, "A", [subjM], [fsM], [oldY], [roomL], [], []⟩

/-- The lecture entry generated in `inpW1` (shifted to 09:00 by `oldY`). -/
def eW1 : Entry := ⟨100, 1, 1, 1, "Monday", "09:00", "10:00", "lecture", none⟩

/-- A lab-only subject. -/
def subjL : Subject := ⟨2, 0, true, false⟩

/-- Faculty 3 may teach subject 2 labs. -/
def fsL : FacultySubject := ⟨3, 2, some ["lab"]⟩

/-- The only lab room. -/
def roomB : Classroom := ⟨5⟩

/-- Minimal lab scenario: three batch sessions get scheduled. -/
def inpW2 : GenInputs := ⟨100, "A", [subjL], [fsL], [], [], [roomB], []⟩

/-- First lab entry generated in `inpW2`. -/
def eLab1 : Entry := ⟨100, 2, 3, 5, "Monday", "08:00", "10:00", "lab", some 1⟩

/-- Third lab entry generated in `inpW2` (placed after the break). -/
def eLab3 : Entry := ⟨100, 2, 3, 5, "Monday", "13:00", "15:00", "lab", some 3⟩

/-- Scenario whose only existing entry is the unparseable `oldX` and which
generates nothing (no subjects). -/
def inpW3 : GenInputs := ⟨100, "A", [], [], [oldX], [], [], []⟩

/-- Read results in which the subjects query fails and everything else
succeeds. -/
def rBad : ReadResults :=
  ⟨.ok ⟨"A", 1⟩, .error "subjects query failed", .ok [], .ok [], .ok [], .ok [],
    .ok [], .ok ()⟩

/-- Read results in which every call succeeds (with empty catalogs). -/
def rGood : ReadResults :=
  ⟨.ok ⟨"A", 1⟩, .ok [], .ok [], .ok [], .ok [], .ok [], .ok [], .ok ()⟩

/-- The zero usage counter (state at the first selection of a run). -/
def usage0 : Nat → Nat := fun _ => 0

/-- A capability row of faculty 2 listed before one of faculty 1. -/
def fsA : FacultySubject := ⟨2, 1, some ["lecture"]⟩

/-- A capability row of faculty 1. -/
def fsB : FacultySubject := ⟨1, 1, some ["lecture"]⟩

/-! ### Basic facts about slots and decoding -/

theorem timeSlots_length : timeSlots.length = 10 := rfl

theorem mem_slotRange {i t d : Nat} :
    i ∈ slotRange t d ↔ (t ≤ i ∧ i < t + d) ∧ i < 10 := by
  simp [slotRange, List.mem_filter, List.mem_range'_1, timeSlots_length]

theorem timeToSlot_slotTime : ∀ t, t ≤ 10 → timeToSlot (slotTime t) = t := by decide

theorem slotTime_take : ∀ t, t ≤ 10 → (slotTime t).take 5 = slotTime t := by decide

theorem durOf_pos (e : Entry) : 0 < durOf e := by
  unfold durOf; split <;> omega

theorem idxOfAux_lt {t : String} :
    ∀ l k i, idxOfAux t l k = some i → i < k + l.length := by
  intro l
  induction l with
  | nil => intro k i h; simp [idxOfAux] at h
  | cons s rest ih =>
    intro k i h
    unfold idxOfAux at h
    by_cases hs : (s == t) = true
    · simp [hs] at h
      simp [← h, List.length_cons]
    · simp [hs] at h
      have := ih (k + 1) i h
      simp only [List.length_cons]
      omega

theorem getTimeIndex_lt {t : String} {i : Nat} (h : getTimeIndex t = some i) : i < 10 := by
  have := idxOfAux_lt timeSlots 0 i h
  simpa [timeSlots_length] using this

theorem overlap_witness {a b c d : Nat} (h : slotsOverlap a b c d) :
    ∃ i, (a ≤ i ∧ i < b) ∧ (c ≤ i ∧ i < d) :=
  ⟨max a c, by constructor <;> constructor <;> simp [slotsOverlap] at h <;> omega⟩

/-! ### Reading the availability checks -/

theorem isSlotAvailable_spec {s : SchedState} {day : String} {t d : Nat}
    (h : isSlotAvailable s day t d = true) :
    t + d ≤ 10 ∧ ∀ i, t ≤ i → i < t + d → s.schedule day i = false := by
  unfold isSlotAvailable at h
  rw [Bool.and_eq_true] at h
  obtain ⟨hall, hle⟩ := h
  have hle' : t + d ≤ 10 := by simpa [timeSlots_length] using of_decide_eq_true hle
  refine ⟨hle', fun i h1 h2 => ?_⟩
  have hi : i ∈ slotRange t d := mem_slotRange.mpr ⟨⟨h1, h2⟩, by omega⟩
  have := List.all_eq_true.mp hall i hi
  simpa using this

theorem isFacultyAvailable_spec {s : SchedState} {fid : Nat} {day : String} {t d : Nat}
    (h : isFacultyAvailable s fid day t d = true) :
    ∀ i, t ≤ i → i < t + d → i < 10 → fid ∉ s.facultySched day i := by
  intro i h1 h2 h3 hmem
  have hi : i ∈ slotRange t d := mem_slotRange.mpr ⟨⟨h1, h2⟩, h3⟩
  have := List.all_eq_true.mp h i hi
  simp at this
  exact this hmem

theorem isClassroomAvailable_spec {s : SchedState} {cid : Nat} {day : String} {t d : Nat}
    (h : isClassroomAvailable s cid day t d = true) :
    ∀ i, t ≤ i → i < t + d → i < 10 → cid ∉ s.classroomSched day i := by
  intro i h1 h2 h3 hmem
  have hi : i ∈ slotRange t d := mem_slotRange.mpr ⟨⟨h1, h2⟩, h3⟩
  have := List.all_eq_true.mp h i hi
  simp at this
  exact this hmem

theorem slotOk_spec {s : SchedState} {day : String} {d fid cid t : Nat}
    (h : slotOk s day d fid cid t = true) :
    (t + d ≤ 10) ∧ (∀ i, t ≤ i → i < t + d → i ≠ BREAK_START) ∧
      (∀ i, t ≤ i → i < t + d → s.schedule day i = false) ∧
      (∀ i, t ≤ i → i < t + d → fid ∉ s.facultySched day i) ∧
      (∀ i, t ≤ i → i < t + d → cid ∉ s.classroomSched day i) := by
  unfold slotOk at h
  simp only [Bool.and_eq_true] at h
  obtain ⟨⟨⟨⟨_, hspan⟩, hslot⟩, hfac⟩, hcls⟩ := h
  obtain ⟨hle, hsched⟩ := isSlotAvailable_spec hslot
  refine ⟨hle, fun i h1 h2 => ?_, hsched, fun i h1 h2 => ?_, fun i h1 h2 => ?_⟩
  · intro hbad
    have hmem : i ∈ List.range' t d := List.mem_range'_1.mpr ⟨h1, h2⟩
    have : spansBreak t d = true := by
      unfold spansBreak
      exact List.any_eq_true.mpr ⟨i, hmem, by simp [isBreakTime, hbad]⟩
    simp [this] at hspan
  · exact isFacultyAvailable_spec hfac i h1 h2 (by omega)
  · exact isClassroomAvailable_spec hcls i h1 h2 (by omega)

/-! ### Monotone growth of the grids -/

theorem schedLE_refl (s : SchedState) : SchedLE s s :=
  ⟨fun _ _ h => h, fun _ _ _ h => h, fun _ _ _ h => h⟩

theorem schedLE_trans {s1 s2 s3 : SchedState} (h1 : SchedLE s1 s2) (h2 : SchedLE s2 s3) :
    SchedLE s1 s3 :=
  ⟨fun d i h => h2.1 d i (h1.1 d i h),
   fun d i f h => h2.2.1 d i f (h1.2.1 d i f h),
   fun d i c h => h2.2.2 d i c (h1.2.2 d i c h)⟩

theorem addBusy_le (s : SchedState) (day : String) (i fid cid : Nat) :
    SchedLE s (addBusy s day i fid cid) := by
  refine ⟨fun d j h => h, fun d j f h => ?_, fun d j c h => ?_⟩ <;>
    · simp only [addBusy]
      split <;> simp [h]

theorem markOne_le (s : SchedState) (day : String) (i fid cid : Nat) :
    SchedLE s (markOne s day i fid cid) := by
  refine ⟨fun d j h => ?_, (addBusy_le s day i fid cid).2.1, (addBusy_le s day i fid cid).2.2⟩
  simp only [markOne]
  split <;> simp [h]

theorem foldl_schedLE {α : Type} (f : SchedState → α → SchedState)
    (hf : ∀ s a, SchedLE s (f s a)) : ∀ (l : List α) (s : SchedState), SchedLE s (l.foldl f s) := by
  intro l
  induction l with
  | nil => intro s; exact schedLE_refl s
  | cons a rest ih => intro s; exact schedLE_trans (hf s a) (ih (f s a))

theorem markSlotOccupied_le (s : SchedState) (day : String) (t d fid cid : Nat) :
    SchedLE s (markSlotOccupied s day t d fid cid) :=
  foldl_schedLE _ (fun s2 i => markOne_le s2 day i fid cid) (slotRange t d) s

theorem seedEntry_le (s : SchedState) (x : ExistingEntry) : SchedLE s (seedEntry s x) := by
  unfold seedEntry
  split
  · exact foldl_schedLE _ (fun s2 i => addBusy_le s2 x.day_of_week i x.faculty_id x.classroom_id) _ s
  · exact schedLE_refl s

/-! ### Marks written by the fold loops -/

theorem foldl_markOne_marks {day : String} {fid cid : Nat} :
    ∀ (l : List Nat) (s : SchedState) (i : Nat), i ∈ l →
      ((l.foldl (fun acc j => markOne acc day j fid cid) s).schedule day i = true ∧
        fid ∈ (l.foldl (fun acc j => markOne acc day j fid cid) s).facultySched day i ∧
        cid ∈ (l.foldl (fun acc j => markOne acc day j fid cid) s).classroomSched day i) := by
  intro l
  induction l with
  | nil => intro s i h; simp at h
  | cons j rest ih =>
    intro s i h
    rcases List.mem_cons.mp h with h | h
    · subst h
      have hle := foldl_schedLE (fun acc j2 => markOne acc day j2 fid cid)
        (fun s2 j2 => markOne_le s2 day j2 fid cid) rest (markOne s day i fid cid)
      have h1 : (markOne s day i fid cid).schedule day i = true := by
        simp [markOne]
      have h2 : fid ∈ (markOne s day i fid cid).facultySched day i := by
        simp [markOne, addBusy]
      have h3 : cid ∈ (markOne s day i fid cid).classroomSched day i := by
        simp [markOne, addBusy]
      exact ⟨hle.1 day i h1, hle.2.1 day i fid h2, hle.2.2 day i cid h3⟩
    · exact ih (markOne s day j fid cid) i h

theorem markSlotOccupied_marks {s : SchedState} {day : String} {t d fid cid i : Nat}
    (h1 : t ≤ i) (h2 : i < t + d) (h3 : i < 10) :
    ((markSlotOccupied s day t d fid cid).schedule day i = true ∧
      fid ∈ (markSlotOccupied s day t d fid cid).facultySched day i ∧
      cid ∈ (markSlotOccupied s day t d fid cid).classroomSched day i) :=
  foldl_markOne_marks (slotRange t d) s i (mem_slotRange.mpr ⟨⟨h1, h2⟩, h3⟩)

theorem foldl_addBusy_marks {day : String} {fid cid : Nat} :
    ∀ (l : List Nat) (s : SchedState) (i : Nat), i ∈ l →
      (fid ∈ (l.foldl (fun acc j => addBusy acc day j fid cid) s).facultySched day i ∧
        cid ∈ (l.foldl (fun acc j => addBusy acc day j fid cid) s).classroomSched day i) := by
  intro l
  induction l with
  | nil => intro s i h; simp at h
  | cons j rest ih =>
    intro s i h
    rcases List.mem_cons.mp h with h | h
    · subst h
      have hle := foldl_schedLE (fun acc j2 => addBusy acc day j2 fid cid)
        (fun s2 j2 => addBusy_le s2 day j2 fid cid) rest (addBusy s day i fid cid)
      have h2 : fid ∈ (addBusy s day i fid cid).facultySched day i := by
        simp [addBusy]
      have h3 : cid ∈ (addBusy s day i fid cid).classroomSched day i := by
        simp [addBusy]
      exact ⟨hle.2.1 day i fid h2, hle.2.2 day i cid h3⟩
    · exact ih (addBusy s day j fid cid) i h

/-! ### Transport of the invariant components along grid growth -/

theorem entryCore_mono {s s' : SchedState} {e : Entry} (hle : SchedLE s s')
    (h : EntryCore s e) : EntryCore s' e := by
  obtain ⟨t, h1, h2, h3, h4⟩ := h
  refine ⟨t, h1, h2, h3, fun i hi1 hi2 => ?_⟩
  obtain ⟨hb, hs, hf, hc⟩ := h4 i hi1 hi2
  exact ⟨hb, hle.1 _ i hs, hle.2.1 _ i _ hf, hle.2.2 _ i _ hc⟩

theorem oldMarked_mono {old : List ExistingEntry} {s s' : SchedState} (hle : SchedLE s s')
    (h : OldMarked old s) : OldMarked old s' := by
  intro x hx si ei hp i h1 h2
  obtain ⟨hf, hc⟩ := h x hx si ei hp i h1 h2
  exact ⟨hle.2.1 _ i _ hf, hle.2.2 _ i _ hc⟩

/-! ### Seeding establishes the busy marks of parsed existing entries -/

theorem seedEntry_marks {s : SchedState} {x : ExistingEntry} {si ei : Nat}
    (hp : OldParsed x si ei) :
    ∀ i, si ≤ i → i < ei →
      (x.faculty_id ∈ (seedEntry s x).facultySched x.day_of_week i ∧
        x.classroom_id ∈ (seedEntry s x).classroomSched x.day_of_week i) := by
  intro i h1 h2
  have hei := getTimeIndex_lt hp.2
  unfold seedEntry
  rw [hp.1, hp.2]
  exact foldl_addBusy_marks _ s i (mem_slotRange.mpr ⟨⟨h1, by omega⟩, by omega⟩)

theorem seedAll_aux : ∀ (old : List ExistingEntry) (s : SchedState),
    OldMarked old (old.foldl seedEntry s) := by
  intro old
  induction old with
  | nil => intro s x hx; simp at hx
  | cons y rest ih =>
    intro s x hx si ei hp i h1 h2
    rw [List.foldl_cons]
    rcases List.mem_cons.mp hx with h | h
    · subst h
      have hle := foldl_schedLE seedEntry seedEntry_le rest (seedEntry s x)
      obtain ⟨hf, hc⟩ := seedEntry_marks (s := s) hp i h1 h2
      exact ⟨hle.2.1 _ i _ hf, hle.2.2 _ i _ hc⟩
    · exact ih (seedEntry s y) x h si ei hp i h1 h2

theorem seedAll_oldMarked (old : List ExistingEntry) : OldMarked old (seedAll old) :=
  seedAll_aux old emptySched

/-! ### Soundness of the slot and room search -/

theorem findBestTimeSlot_sound {s : SchedState} {day : String} {d fid cid t : Nat}
    {l : List Nat} (h : findBestTimeSlot s day d fid cid l = some t) :
    slotOk s day d fid cid t = true := by
  unfold findBestTimeSlot at h
  rcases hfind : List.find? (slotOk s day d fid cid) l with _ | t0
  · simp only [hfind] at h
    exact List.find?_some h
  · simp only [hfind, Option.some.injEq] at h
    subst h
    exact List.find?_some hfind

theorem tryRoomsAux_sound {s : SchedState} {day : String} {dur fid : Nat}
    {rooms : List Classroom} {startIdx : Nat} {times : Nat → List Nat} :
    ∀ (l : List Nat) (ctr : Nat) {room : Classroom} {t idx' ctr' : Nat},
      tryRoomsAux s day dur fid rooms startIdx times l ctr =
        (some (room, t, idx'), ctr') →
      slotOk s day dur fid room.id t = true := by
  intro l
  induction l with
  | nil => intro ctr room t idx' ctr' h; simp [tryRoomsAux] at h
  | cons i rest ih =>
    intro ctr room t idx' ctr' h
    rw [tryRoomsAux] at h
    rcases hroom : rooms[(startIdx + i) % rooms.length]? with _ | r
    · rw [hroom] at h
      simp at h
    · simp only [hroom] at h
      rcases hfind : findBestTimeSlot s day dur fid r.id (times ctr) with _ | t0
      · simp only [hfind] at h
        exact ih (ctr + 1) h
      · simp only [hfind, Prod.mk.injEq, Option.some.injEq] at h
        obtain ⟨⟨hr, ht, _⟩, _⟩ := h
        subst hr
        subst ht
        exact findBestTimeSlot_sound hfind

theorem tryRooms_sound {s : SchedState} {day : String} {dur fid : Nat}
    {rooms : List Classroom} {startIdx : Nat} {times : Nat → List Nat} {ctr : Nat}
    {room : Classroom} {t idx' ctr' : Nat}
    (h : tryRooms s day dur fid rooms startIdx times ctr = (some (room, t, idx'), ctr')) :
    slotOk s day dur fid room.id t = true :=
  tryRoomsAux_sound _ ctr h

/-! ### The commit step preserves the bundled invariant -/

theorem entryCore_interval {s : SchedState} {e : Entry} (h : EntryCore s e) :
    eEnd e = eStart e + durOf e ∧ eStart e + durOf e ≤ 10 ∧
      ∀ i, eStart e ≤ i → i < eStart e + durOf e →
        i ≠ BREAK_START ∧ s.schedule e.day_of_week i = true ∧
          e.faculty_id ∈ s.facultySched e.day_of_week i ∧
          e.classroom_id ∈ s.classroomSched e.day_of_week i := by
  obtain ⟨t, h1, h2, h3, h4⟩ := h
  have h3' : t + durOf e ≤ 10 := by simpa [timeSlots_length] using h3
  have hdp := durOf_pos e
  have hts : eStart e = t := by
    rw [eStart, h1]; exact timeToSlot_slotTime t (by omega)
  have hte : eEnd e = t + durOf e := by
    rw [eEnd, h2]; exact timeToSlot_slotTime _ h3'
  rw [hts, hte]
  exact ⟨rfl, h3', h4⟩

theorem commit_ginv {old : List ExistingEntry} {bsh : Nat → List Batch → List Batch}
    {batches : List Batch} {s : SchedState} {es : List Entry}
    {daily daily' : String → List Nat}
    (hInv : GInv old bsh batches s es daily)
    {t d : Nat} {e : Entry}
    (hok : slotOk s e.day_of_week d e.faculty_id e.classroom_id t = true)
    (hst : e.start_time = slotTime t) (hen : e.end_time = slotTime (t + d))
    (hdur : durOf e = d)
    (hbn : e.subject_type = "lecture" → e.batch_number = none)
    (hbb : e.subject_type ≠ "lecture" →
      ∃ k b, b ∈ bsh k batches ∧ e.batch_number = some b.number)
    (hlec : e.subject_type = "lecture" → e.subject_id ∉ daily e.day_of_week)
    (hdsub : ∀ d2 x, x ∈ daily d2 → x ∈ daily' d2)
    (hdnew : e.subject_type = "lecture" → e.subject_id ∈ daily' e.day_of_week) :
    GInv old bsh batches
      (markSlotOccupied s e.day_of_week t d e.faculty_id e.classroom_id)
      (es ++ [e]) daily' := by
  obtain ⟨hle10, hbreak, hfree, hffree, hcfree⟩ := slotOk_spec hok
  have hdpos : 0 < d := hdur ▸ durOf_pos e
  have hmle := markSlotOccupied_le s e.day_of_week t d e.faculty_id e.classroom_id
  have heS : eStart e = t := by
    rw [eStart, hst]; exact timeToSlot_slotTime t (by omega)
  have heE : eEnd e = t + d := by
    rw [eEnd, hen]; exact timeToSlot_slotTime _ (by omega)
  have hcore : EntryCore (markSlotOccupied s e.day_of_week t d e.faculty_id e.classroom_id) e := by
    refine ⟨t, hst, by rw [hdur]; exact hen, by rw [hdur, timeSlots_length]; exact hle10,
      fun i hi1 hi2 => ?_⟩
    rw [hdur] at hi2
    obtain ⟨hsc, hfm, hcm⟩ := markSlotOccupied_marks hi1 hi2 (by omega)
    exact ⟨hbreak i hi1 hi2, hsc, hfm, hcm⟩
  refine ⟨oldMarked_mono hmle hInv.oldM, ?_, ?_, ?_, ?_, ?_, ?_⟩
  · intro e1 h1
    rcases List.mem_append.mp h1 with h1 | h1
    · exact entryCore_mono hmle (hInv.newM e1 h1)
    · rw [List.mem_singleton.mp h1]; exact hcore
  · unfold NewDisjoint
    rw [List.pairwise_append]
    refine ⟨hInv.disj, by simp, fun e1 h1 e2 h2 hday hovl => ?_⟩
    rw [List.mem_singleton.mp h2] at hday hovl
    obtain ⟨hE1, hB1, hM1⟩ := entryCore_interval (hInv.newM e1 h1)
    rw [heS, heE] at hovl
    obtain ⟨i, ⟨ha1, ha2⟩, ⟨hb1, hb2⟩⟩ := overlap_witness hovl
    rw [hE1] at ha2
    have hsc : s.schedule e1.day_of_week i = true := (hM1 i ha1 ha2).2.1
    have hfr : s.schedule e.day_of_week i = false := hfree i hb1 hb2
    rw [hday] at hsc
    rw [hsc] at hfr
    simp at hfr
  · intro e2 h2 x hx si ei hp hday
    rcases List.mem_append.mp h2 with h2 | h2
    · exact hInv.newOld e2 h2 x hx si ei hp hday
    · rw [List.mem_singleton.mp h2] at hday ⊢
      constructor
      · intro hfx hovl
        rw [heS, heE] at hovl
        obtain ⟨i, ⟨ha1, ha2⟩, ⟨hb1, hb2⟩⟩ := overlap_witness hovl
        have hmem := (hInv.oldM x hx si ei hp i hb1 hb2).1
        rw [hfx, hday] at hmem
        exact hffree i ha1 ha2 hmem
      · intro hcx hovl
        rw [heS, heE] at hovl
        obtain ⟨i, ⟨ha1, ha2⟩, ⟨hb1, hb2⟩⟩ := overlap_witness hovl
        have hmem := (hInv.oldM x hx si ei hp i hb1 hb2).2
        rw [hcx, hday] at hmem
        exact hcfree i ha1 ha2 hmem
  · intro e1 h1 hl
    rcases List.mem_append.mp h1 with h1 | h1
    · exact hdsub _ _ (hInv.lecM e1 h1 hl)
    · rw [List.mem_singleton.mp h1] at hl ⊢
      exact hdnew hl
  · unfold LecOnce
    rw [List.pairwise_append]
    refine ⟨hInv.lecOnce, by simp, fun e1 h1 e2 h2 hbad => ?_⟩
    rw [List.mem_singleton.mp h2] at hbad
    obtain ⟨hl1, hl2, hsub, hday⟩ := hbad
    have := hInv.lecM e1 h1 hl1
    rw [hsub, hday] at this
    exact hlec hl2 this
  · intro e1 h1
    rcases List.mem_append.mp h1 with h1 | h1
    · exact hInv.batchTag e1 h1
    · rw [List.mem_singleton.mp h1]
      exact ⟨hbn, hbb⟩

/-! ### Phase 2 preserves the invariant -/

theorem setRoomIdx_sched (k : SessionKind) (st : GenState) (i : Nat) :
    (k.setRoomIdx st i).sched = st.sched := by cases k <;> rfl

theorem setRoomIdx_entries (k : SessionKind) (st : GenState) (i : Nat) :
    (k.setRoomIdx st i).entries = st.entries := by cases k <;> rfl

theorem setRoomIdx_daily (k : SessionKind) (st : GenState) (i : Nat) :
    (k.setRoomIdx st i).daily = st.daily := by cases k <;> rfl

theorem sessionKind_ty_ne_lecture (k : SessionKind) : k.ty ≠ "lecture" := by
  cases k <;> decide

theorem durOf_mkEntry_session (k : SessionKind) (sectionId subjectId fid cid : Nat)
    (day : String) (t : Nat) (b : Option Nat) :
    durOf (mkEntry sectionId subjectId fid cid day t k.dur k.ty b) = k.dur := by
  cases k <;> simp [durOf, mkEntry, SessionKind.ty, SessionKind.dur]

theorem tryDaysSession_ginv {old : List ExistingEntry}
    {bsh : Nat → List Batch → List Batch} {batches : List Batch} (k : SessionKind)
    (sectionId subjectId fid : Nat) (rooms : List Classroom)
    (times : Nat → List Nat) (batchNum : Nat)
    (hb : ∃ kk b, b ∈ bsh kk batches ∧ b.number = batchNum) :
    ∀ (days : List String) (st : GenState),
      GInv old bsh batches st.sched st.entries st.daily →
      GInv old bsh batches
        (tryDaysSession k sectionId subjectId fid rooms times batchNum st days).sched
        (tryDaysSession k sectionId subjectId fid rooms times batchNum st days).entries
        (tryDaysSession k sectionId subjectId fid rooms times batchNum st days).daily := by
  intro days
  induction days with
  | nil => intro st h; exact h
  | cons day rest ih =>
    intro st h
    rw [tryDaysSession]
    rcases htr : tryRooms st.sched day k.dur fid rooms (k.roomIdx st) times st.timesCtr
      with ⟨o, ctr'⟩
    rcases o with _ | ⟨room, t, idx'⟩
    · simp only [htr]
      exact ih { st with timesCtr := ctr' } h
    · simp only [htr]
      rw [setRoomIdx_sched, setRoomIdx_entries, setRoomIdx_daily]
      obtain ⟨kk, b, hbm, hbn⟩ := hb
      refine commit_ginv h (tryRooms_sound htr) rfl rfl
        (durOf_mkEntry_session k sectionId subjectId fid room.id day t (some batchNum))
        (fun hlec => absurd hlec (sessionKind_ty_ne_lecture k))
        (fun _ => ⟨kk, b, hbm, by simp [mkEntry, hbn]⟩)
        (fun hlec => absurd hlec (sessionKind_ty_ne_lecture k))
        (fun _ _ hx => hx)
        (fun hlec => absurd hlec (sessionKind_ty_ne_lecture k))

theorem batchLoop_ginv {old : List ExistingEntry}
    {bsh : Nat → List Batch → List Batch} {batches : List Batch} (k : SessionKind)
    (sectionId subjectId fid : Nat) (rooms : List Classroom)
    (times : Nat → List Nat) (shuffledDays : List String) :
    ∀ (bs : List Batch) (st : GenState),
      (∀ b ∈ bs, ∃ kk b2, b2 ∈ bsh kk batches ∧ b2.number = b.number) →
      GInv old bsh batches st.sched st.entries st.daily →
      GInv old bsh batches
        (batchLoop k sectionId subjectId fid rooms times shuffledDays st bs).sched
        (batchLoop k sectionId subjectId fid rooms times shuffledDays st bs).entries
        (batchLoop k sectionId subjectId fid rooms times shuffledDays st bs).daily := by
  intro bs
  induction bs with
  | nil => intro st _ h; exact h
  | cons b rest ih =>
    intro st hsb h
    rw [batchLoop]
    exact ih _ (fun b2 h2 => hsb b2 (List.mem_cons_of_mem b h2))
      (tryDaysSession_ginv k sectionId subjectId fid rooms times b.number
        (hsb b (List.mem_cons_self b rest)) shuffledDays st h)

theorem phase2Session_ginv {old : List ExistingEntry} (k : SessionKind)
    (sectionId : Nat) (shuffledDays : List String) (fss : List FacultySubject)
    (rooms : List Classroom) (times : Nat → List Nat) (batches : List Batch)
    (bshuffle : Nat → List Batch → List Batch) (st : GenState) (subject : Subject)
    (h : GInv old bshuffle batches st.sched st.entries st.daily) :
    GInv old bshuffle batches
      (phase2Session k sectionId shuffledDays fss rooms times batches bshuffle st subject).sched
      (phase2Session k sectionId shuffledDays fss rooms times batches bshuffle st subject).entries
      (phase2Session k sectionId shuffledDays fss rooms times batches bshuffle st subject).daily := by
  rw [phase2Session]
  rcases hfl : fss.filter (fun fs => fs.subject_id == subject.id && fsHasType fs k.ty)
    with _ | ⟨f, rest⟩
  · simp only [hfl]; exact h
  · simp only [hfl]
    exact batchLoop_ginv k sectionId subject.id
      (selectLeastLoaded st.usage f rest).faculty_id rooms times shuffledDays
      (bshuffle st.batchCtr batches) { st with batchCtr := st.batchCtr + 1 }
      (fun b2 h2 => ⟨st.batchCtr, b2, h2, rfl⟩) h

theorem phase2Step_ginv {old : List ExistingEntry} (sectionId : Nat)
    (shuffledDays : List String) (fss : List FacultySubject)
    (labRooms tutRooms : List Classroom) (times : Nat → List Nat)
    (batches : List Batch) (bshuffle : Nat → List Batch → List Batch)
    (st : GenState) (subject : Subject)
    (h : GInv old bshuffle batches st.sched st.entries st.daily) :
    GInv old bshuffle batches
      (phase2Step sectionId shuffledDays fss labRooms tutRooms times batches bshuffle st subject).sched
      (phase2Step sectionId shuffledDays fss labRooms tutRooms times batches bshuffle st subject).entries
      (phase2Step sectionId shuffledDays fss labRooms tutRooms times batches bshuffle st subject).daily := by
  rw [phase2Step]
  split
  · split
    · exact phase2Session_ginv .tutorial sectionId shuffledDays fss tutRooms times
        batches bshuffle _ subject
        (phase2Session_ginv .lab sectionId shuffledDays fss labRooms times
          batches bshuffle st subject h)
    · exact phase2Session_ginv .tutorial sectionId shuffledDays fss tutRooms times
        batches bshuffle st subject h
  · split
    · exact phase2Session_ginv .lab sectionId shuffledDays fss labRooms times
        batches bshuffle st subject h
    · exact h

/-! ### Phase 1 preserves the invariant -/

theorem lectureInner_ginv {old : List ExistingEntry}
    {bsh : Nat → List Batch → List Batch} {batches : List Batch}
    (sectionId subjectId fid : Nat) (rooms : List Classroom)
    (times : Nat → List Nat) (hours : Nat) :
    ∀ (fuel : Nat) (st : GenState) (days : List String),
      GInv old bsh batches st.sched st.entries st.daily →
      GInv old bsh batches
        (lectureInner sectionId subjectId fid rooms times hours fuel st days).state.sched
        (lectureInner sectionId subjectId fid rooms times hours fuel st days).state.entries
        (lectureInner sectionId subjectId fid rooms times hours fuel st days).state.daily := by
  intro fuel
  induction fuel with
  | zero => intro st days h; exact h
  | succ fuel ih =>
    intro st days h
    rw [lectureInner]
    by_cases hlen : 0 < days.length
    · simp only [if_pos hlen]
      by_cases hc : (st.daily (days.getD (hours % days.length) "")).contains subjectId = true
      · simp only [hc, if_true]
        exact ih st (days.eraseIdx (hours % days.length)) h
      · simp only [hc, if_false, Bool.false_eq_true]
        rcases htr : tryRooms st.sched (days.getD (hours % days.length) "") 1 fid rooms
            st.lectureRoomIndex times st.timesCtr with ⟨o, ctr'⟩
        rcases o with _ | ⟨room, t, idx'⟩
        · simp only [htr]
          exact ih { st with timesCtr := ctr' } (days.eraseIdx (hours % days.length)) h
        · simp only [htr]
          dsimp only [InnerRes.state]
          exact @commit_ginv old bsh batches st.sched st.entries st.daily
            (fun d2 => if d2 = days.getD (hours % days.length) "" then
              subjectId :: st.daily d2 else st.daily d2)
            h t 1
            (mkEntry sectionId subjectId fid room.id
              (days.getD (hours % days.length) "") t 1 "lecture" none)
            (tryRooms_sound htr) rfl rfl (by simp [durOf, mkEntry]) (fun _ => rfl)
            (fun hne => absurd rfl hne)
            (fun _ hmem => hc (by simpa [mkEntry] using hmem))
            (fun d2 x hx => by
              beta_reduce
              by_cases hd : d2 = days.getD (hours % days.length) ""
              · rw [if_pos hd]
                exact List.mem_cons_of_mem _ hx
              · rw [if_neg hd]
                exact hx)
            (fun _ => by simp [mkEntry])
    · simp only [if_neg hlen]
      exact h

theorem lectureOuter_ginv {old : List ExistingEntry}
    {bsh : Nat → List Batch → List Batch} {batches : List Batch}
    (sectionId subjectId fid : Nat) (shuffledDays : List String)
    (rooms : List Classroom) (times : Nat → List Nat) (weekly : Nat) :
    ∀ (hl hours : Nat) (st : GenState) (days : List String),
      GInv old bsh batches st.sched st.entries st.daily →
      GInv old bsh batches
        (lectureOuter sectionId subjectId fid shuffledDays rooms times weekly hl hours st days).sched
        (lectureOuter sectionId subjectId fid shuffledDays rooms times weekly hl hours st days).entries
        (lectureOuter sectionId subjectId fid shuffledDays rooms times weekly hl hours st days).daily := by
  intro hl
  induction hl with
  | zero => intro hours st days h; exact h
  | succ hl ih =>
    intro hours st days h
    rw [lectureOuter]
    have hinner := lectureInner_ginv sectionId subjectId fid rooms times hours
      days.length st days h
    rcases hres : lectureInner sectionId subjectId fid rooms times hours
        days.length st days with st' | ⟨st', days'⟩
    · simp only [hres]
      rw [hres] at hinner
      exact hinner
    · simp only [hres]
      rw [hres] at hinner
      exact ih (hours + 1) st' _ hinner

theorem phase1Step_ginv {old : List ExistingEntry}
    {bsh : Nat → List Batch → List Batch} {batches : List Batch}
    (sectionId : Nat) (shuffledDays : List String) (fss : List FacultySubject)
    (rooms : List Classroom) (times : Nat → List Nat) (st : GenState)
    (subject : Subject)
    (h : GInv old bsh batches st.sched st.entries st.daily) :
    GInv old bsh batches
      (phase1Step sectionId shuffledDays fss rooms times st subject).sched
      (phase1Step sectionId shuffledDays fss rooms times st subject).entries
      (phase1Step sectionId shuffledDays fss rooms times st subject).daily := by
  rw [phase1Step]
  rcases hfl : fss.filter (fun fs => fs.subject_id == subject.id && fsHasType fs "lecture")
    with _ | ⟨f, rest⟩
  · simp only [hfl]; exact h
  · simp only [hfl]
    exact lectureOuter_ginv sectionId subject.id
      (selectLeastLoaded st.usage f rest).faculty_id shuffledDays rooms times
      subject.weekly_hours subject.weekly_hours 0 st shuffledDays h

/-! ### The whole run satisfies the invariant -/

theorem foldl_ginv {α : Type} {old : List ExistingEntry}
    {bsh : Nat → List Batch → List Batch} {batches : List Batch}
    (f : GenState → α → GenState)
    (hf : ∀ st a, GInv old bsh batches st.sched st.entries st.daily →
      GInv old bsh batches (f st a).sched (f st a).entries (f st a).daily) :
    ∀ (l : List α) (st : GenState),
      GInv old bsh batches st.sched st.entries st.daily →
      GInv old bsh batches (l.foldl f st).sched (l.foldl f st).entries (l.foldl f st).daily := by
  intro l
  induction l with
  | nil => intro st h; exact h
  | cons a rest ih => intro st h; rw [List.foldl_cons]; exact ih (f st a) (hf st a h)

theorem generate_ginv (inp : GenInputs) (rand : RandomSource) :
    GInv inp.existingTimetable rand.batches (mkBatches inp.sectionName)
      (generateState inp rand).sched (generateState inp rand).entries
      (generateState inp rand).daily := by
  unfold generateState generateCoreState
  refine foldl_ginv _ (fun st a h => phase2Step_ginv inp.sectionId _ _ _ _ _ _ _ st a h) _ _
    (foldl_ginv _ (fun st a h => phase1Step_ginv inp.sectionId _ _ _ _ st a h) _ _ ?_)
  refine ⟨seedAll_oldMarked inp.existingTimetable, ?_, ?_, ?_, ?_, ?_, ?_⟩
  · intro e h; simp at h
  · exact List.Pairwise.nil
  · intro e h; simp at h
  · intro e h; simp at h
  · exact List.Pairwise.nil
  · intro e h; simp at h

/-! ### Claim theorems -/

/-- C9: no two entries generated for the target section in one run overlap
in (day, time interval) at all, regardless of faculty, classroom or batch,
because every commit requires the section's own per-day grid to be free on
the whole interval and then occupies it. -/
theorem c9_section_no_overlap (inp : GenInputs) (rand : RandomSource) :
    (generateTimetable inp rand).Pairwise (fun e1 e2 =>
      e1.day_of_week = e2.day_of_week →
        ¬ slotsOverlap (eStart e1) (eEnd e1) (eStart e2) (eEnd e2)) :=
  (generate_ginv inp rand).disj

/-- C1 (amended): among the generated entries, any two on the same day have
disjoint intervals (in particular when they share a faculty or classroom);
and no generated entry overlaps a pre-existing entry of another section
that shares its day and its faculty or classroom, provided that
pre-existing entry's truncated times both parse to slot labels.  Pairs of
two pre-existing entries, and pre-existing entries with off-grid times
(which the seeding loop silently skips), are not covered — the original
claim fails on them, see the counterexample. -/
theorem c1_no_cross_booking (inp : GenInputs) (rand : RandomSource) :
    ((generateTimetable inp rand).Pairwise (fun e1 e2 =>
      e1.day_of_week = e2.day_of_week →
        (e1.faculty_id = e2.faculty_id ∨ e1.classroom_id = e2.classroom_id) →
        ¬ slotsOverlap (eStart e1) (eEnd e1) (eStart e2) (eEnd e2))) ∧
    ∀ e ∈ generateTimetable inp rand, ∀ x ∈ inp.existingTimetable, ∀ si ei,
      OldParsed x si ei → x.day_of_week = e.day_of_week →
      (x.faculty_id = e.faculty_id ∨ x.classroom_id = e.classroom_id) →
      ¬ slotsOverlap (eStart e) (eEnd e) si ei := by
  have hg := generate_ginv inp rand
  constructor
  · exact List.Pairwise.imp (fun h hday _ => h hday) hg.disj
  · intro e he x hx si ei hp hday hor
    rcases hor with hor | hor
    · exact (hg.newOld e he x hx si ei hp hday).1 hor
    · exact (hg.newOld e he x hx si ei hp hday).2 hor

/-- C1 (counterexample): with one pre-existing entry of another section
booking faculty 1 on Monday 17:00–18:00 — whose end time "18:00" is not
among the ten slot labels, so the seeding loop skips it — a run whose
start-time shuffle puts 17:00 first double-books faculty 1 on Monday
17:00–18:00, violating the claim as stated. -/
theorem c1_counterexample : ¬ C1Statement := by
  intro h
  have hv : ValidRand ceRand := by
    refine ⟨fun l => List.Perm.refl l, fun n l => ?_, fun _ l => List.Perm.refl l⟩
    show (if l = [0, 1, 2, 3, 5, 6, 7, 8, 9] then [9, 0, 1, 2, 3, 5, 6, 7, 8] else l).Perm l
    split
    · next heq => rw [heq]; decide
    · exact List.Perm.refl l
  exact absurd (h inpCE ceRand hv) (by decide)

/-- C4: no generated entry's slot interval includes the designated break
slot (index 4, the 12:00 hour): candidate slots equal to or spanning the
break are rejected before any commit. -/
theorem c4_break_exclusion (inp : GenInputs) (rand : RandomSource) :
    ∀ e ∈ generateTimetable inp rand,
      ¬ (eStart e ≤ BREAK_START ∧ BREAK_START < eEnd e) := by
  intro e he hbad
  obtain ⟨hE, _, hM⟩ := entryCore_interval ((generate_ginv inp rand).newM e he)
  rw [hE] at hbad
  exact (hM BREAK_START hbad.1 hbad.2).1 rfl

/-- C5: every generated lab entry spans exactly two one-hour slots and
every generated lecture or tutorial entry exactly one, where the end time
"18:00" one past the last listed slot denotes slot index 10. -/
theorem c5_duration_law (inp : GenInputs) (rand : RandomSource) :
    ∀ e ∈ generateTimetable inp rand,
      (e.subject_type = "lab" → eEnd e = eStart e + 2) ∧
      (e.subject_type = "lecture" ∨ e.subject_type = "tutorial" →
        eEnd e = eStart e + 1) := by
  intro e he
  obtain ⟨hE, _, _⟩ := entryCore_interval ((generate_ginv inp rand).newM e he)
  constructor
  · intro hl
    rw [hE, durOf, if_pos hl]
  · intro hl
    have hne : ¬ e.subject_type = "lab" := by
      rcases hl with h | h <;> rw [h] <;> decide
    rw [hE, durOf, if_neg hne]

/-- C6: among the entries of one generation run, no two lecture entries
share a subject and a day — the `dailySubjectLectures` guard is checked
before each lecture commit and recorded after it, and the candidate-day
refill only re-adds days with no lecture of the subject yet. -/
theorem c6_lecture_once (inp : GenInputs) (rand : RandomSource) :
    (generateTimetable inp rand).Pairwise (fun e1 e2 =>
      ¬ (e1.subject_type = "lecture" ∧ e2.subject_type = "lecture" ∧
         e1.subject_id = e2.subject_id ∧ e1.day_of_week = e2.day_of_week)) :=
  (generate_ginv inp rand).lecOnce

/-- C7: in every run whose batch shuffles only rearrange the batch list
(as JS sort does), batch_number is null on every lecture entry and an
element of {1, 2, 3} on every lab and tutorial entry. -/
theorem c7_batch_tagging (inp : GenInputs) (rand : RandomSource) (hb : BatchOk rand) :
    ∀ e ∈ generateTimetable inp rand,
      (e.subject_type = "lecture" → e.batch_number = none) ∧
      (e.subject_type = "lab" ∨ e.subject_type = "tutorial" →
        e.batch_number = some 1 ∨ e.batch_number = some 2 ∨ e.batch_number = some 3) := by
  intro e he
  obtain ⟨h1, h2⟩ := (generate_ginv inp rand).batchTag e he
  refine ⟨h1, fun hl => ?_⟩
  have hne : e.subject_type ≠ "lecture" := by
    rcases hl with h | h <;> rw [h] <;> decide
  obtain ⟨k, b, hbm, hbn⟩ := h2 hne
  have hbl : b ∈ mkBatches inp.sectionName := hb k _ b hbm
  have hmk : mkBatches inp.sectionName =
      [⟨1, inp.sectionName ++ "1"⟩, ⟨2, inp.sectionName ++ "2"⟩,
        ⟨3, inp.sectionName ++ "3"⟩] := rfl
  rw [hmk] at hbl
  simp only [List.mem_cons, List.not_mem_nil, or_false] at hbl
  rcases hbl with hbl | hbl | hbl
  · left; rw [hbn, hbl]
  · right; left; rw [hbn, hbl]
  · right; right; rw [hbn, hbl]

/-- C2 (counterexample): the delete of the target section's entries is the
very first awaited call, before any catalog read; with a failing subjects
read the run still issues the delete, so the target section's schedule
does not remain untouched. -/
theorem c2_counterexample : ¬ C2Statement := by
  intro h
  have := h 1 rBad idRand (Or.inr (Or.inl rfl))
  exact absurd this (by decide)

/-- C2 (amended): the run deletes the target section's entries first; if
any catalog read then fails, the run aborts with exactly that deletion
performed and no insertion, leaving the section's schedule empty rather
than untouched. -/
theorem c2_read_failure_after_delete (sectionId : Nat) (r : ReadResults)
    (rand : RandomSource) (h : ReadFailed r) :
    (mutationFn sectionId r rand).1 = [DBOp.deleteSection sectionId] ∧
      isErr (mutationFn sectionId r rand).2 = true := by
  unfold mutationFn
  rcases h1 : r.sectionRes with e1 | sec
  · simp [h1, isErr]
  rcases h2 : r.subjectsRes with e2 | subs
  · simp [h1, h2, isErr]
  rcases h3 : r.fsRes with e3 | fss
  · simp [h1, h2, h3, isErr]
  rcases h4 : r.existingRes with e4 | existing
  · simp [h1, h2, h3, h4, isErr]
  rcases h5 : r.lectureRoomsRes with e5 | lr
  · simp [h1, h2, h3, h4, h5, isErr]
  rcases h6 : r.labRoomsRes with e6 | br
  · simp [h1, h2, h3, h4, h5, h6, isErr]
  rcases h7 : r.tutorialRoomsRes with e7 | tr
  · simp [h1, h2, h3, h4, h5, h6, h7, isErr]
  exfalso
  rcases h with hf | hf | hf | hf | hf | hf | hf
  · rw [h1] at hf; exact absurd hf (by simp [isErr])
  · rw [h2] at hf; exact absurd hf (by simp [isErr])
  · rw [h3] at hf; exact absurd hf (by simp [isErr])
  · rw [h4] at hf; exact absurd hf (by simp [isErr])
  · rw [h5] at hf; exact absurd hf (by simp [isErr])
  · rw [h6] at hf; exact absurd hf (by simp [isErr])
  · rw [h7] at hf; exact absurd hf (by simp [isErr])

/-- C3 (counterexample): the run has no seed input — all shuffles are
ambient `Math.random` sorts — and its output depends on their outcomes:
with identical catalog state, the identity day order places the lecture on
Monday while the reversed day order places it on Friday. -/
theorem c3_counterexample : ¬ C3Statement := by
  intro h
  have hv1 : ValidRand idRand :=
    ⟨fun l => List.Perm.refl l, fun _ l => List.Perm.refl l, fun _ l => List.Perm.refl l⟩
  have hv2 : ValidRand revRand :=
    ⟨fun l => List.reverse_perm l, fun _ l => List.Perm.refl l, fun _ l => List.Perm.refl l⟩
  exact absurd (h inpC3 idRand revRand hv1 hv2) (by decide)

/-- C3 (amended): the run is a pure function of the catalog inputs and the
outcomes of its three shuffle points (day order, start-slot order, batch
order); two runs on the same inputs whose shuffles come out identically
produce identical entry lists.  Determinism under a fixed seed would hold
only in this sense: the code has no seed input. -/
theorem c3_determinism_given_shuffles (inp : GenInputs) (r1 r2 : RandomSource)
    (hd : r1.days daysOfWeek = r2.days daysOfWeek)
    (ht : ∀ n, r1.times n startTimesBase = r2.times n startTimesBase)
    (hb : ∀ n l, r1.batches n l = r2.batches n l) :
    generateTimetable inp r1 = generateTimetable inp r2 := by
  unfold generateTimetable generateState
  rw [hd]
  rw [show (fun n => r1.times n startTimesBase) = (fun n => r2.times n startTimesBase)
    from funext ht]
  rw [show r1.batches = r2.batches from funext fun n => funext (hb n)]

/-- C8 (counterexample): ties in the least-loaded reduction are broken by
position in the capability list, not by faculty id: with all loads zero
and the row of faculty 2 listed first, faculty 2 is chosen although
faculty 1 is equally loaded with a smaller id. -/
theorem c8_counterexample : ¬ C8Statement := by
  intro h
  have := (h usage0 fsA [fsB]).2 fsB (by decide) rfl
  exact absurd this (by decide)

/-- C8 (amended): the `reduce` picks a qualified row of minimal running
load, and on ties the earliest listed row wins: the capability list splits
as `l1 ++ chosen :: l2` where every row of `l1` is strictly more loaded
and every row of `l2` at least as loaded as the chosen one.  The tie-break
is deterministic given the list order, but it is list position — the DB
row order — not an order on faculty ids. -/
theorem c8_least_loaded_earliest (u : Nat → Nat) (f : FacultySubject)
    (fs : List FacultySubject) :
    ∃ l1 l2, f :: fs = l1 ++ selectLeastLoaded u f fs :: l2 ∧
      (∀ x ∈ l1, u (selectLeastLoaded u f fs).faculty_id < u x.faculty_id) ∧
      (∀ x ∈ l2, u (selectLeastLoaded u f fs).faculty_id ≤ u x.faculty_id) := by
  induction fs generalizing f with
  | nil => exact ⟨[], [], rfl, by simp, by simp⟩
  | cons b rest ih =>
    have hstep : selectLeastLoaded u f (b :: rest) =
        selectLeastLoaded u (if u b.faculty_id < u f.faculty_id then b else f) rest := rfl
    by_cases hc : u b.faculty_id < u f.faculty_id
    · rw [hstep, if_pos hc]
      obtain ⟨l1, l2, hsplit, hl1, hl2⟩ := ih b
      have hmin : u (selectLeastLoaded u b rest).faculty_id ≤ u b.faculty_id := by
        cases l1 with
        | nil =>
          simp only [List.nil_append] at hsplit
          injection hsplit with hh _
          rw [← hh]
        | cons c l1' =>
          injection hsplit with hh _
          exact le_of_lt (hh ▸ hl1 c (List.mem_cons_self c l1'))
      refine ⟨f :: l1, l2, ?_, ?_, hl2⟩
      · rw [List.cons_append, ← hsplit]
      · intro x hx
        rcases List.mem_cons.mp hx with hx | hx
        · rw [hx]; exact lt_of_le_of_lt hmin hc
        · exact hl1 x hx
    · rw [hstep, if_neg hc]
      push_neg at hc
      obtain ⟨l1, l2, hsplit, hl1, hl2⟩ := ih f
      cases l1 with
      | nil =>
        simp only [List.nil_append] at hsplit
        injection hsplit with hh hrest
        refine ⟨[], b :: rest, by rw [List.nil_append, ← hh], by simp, ?_⟩
        intro x hx
        rcases List.mem_cons.mp hx with hx | hx
        · rw [hx, ← hh]; exact hc
        · exact hl2 x (hrest ▸ hx)
      | cons c l1' =>
        injection hsplit with hh hrest
        have hrf : u (selectLeastLoaded u f rest).faculty_id < u f.faculty_id :=
          hh ▸ hl1 c (List.mem_cons_self c l1')
        refine ⟨f :: b :: l1', l2, ?_, ?_, hl2⟩
        · rw [List.cons_append, List.cons_append]
          conv_lhs => rw [hrest]
          rfl
        · intro x hx
          rcases List.mem_cons.mp hx with hx | hx
          · rw [hx]; exact hrf
          rcases List.mem_cons.mp hx with hx | hx
          · rw [hx]; exact lt_of_lt_of_le hrf hc
          · exact hl1 x (List.mem_cons_of_mem c hx)

/-- C10: a pre-existing entry whose truncated start or end is not one of
the ten slot labels is silently skipped by the seeding loop — it adds no
busy mark — and therefore imposes no constraint at all on the generated
schedule: removing it from the input leaves the run's output unchanged. -/
theorem c10_unparsed_entry_ignored (inp : GenInputs) (rand : RandomSource)
    (x : ExistingEntry) (l1 l2 : List ExistingEntry)
    (hsplit : inp.existingTimetable = l1 ++ x :: l2)
    (hbad : getTimeIndex (x.start_time.take 5) = none ∨
      getTimeIndex (x.end_time.take 5) = none) :
    (∀ s, seedEntry s x = s) ∧
      generateTimetable inp rand =
        generateTimetable { inp with existingTimetable := l1 ++ l2 } rand := by
  have hskip : ∀ s, seedEntry s x = s := by
    intro s
    unfold seedEntry
    rcases hbad with hbad | hbad
    · rw [hbad]
    · rcases hs : getTimeIndex (x.start_time.take 5) with _ | si
      · rfl
      · rw [hbad]
  refine ⟨hskip, ?_⟩
  have hseed : seedAll (l1 ++ x :: l2) = seedAll (l1 ++ l2) := by
    unfold seedAll
    rw [List.foldl_append, List.foldl_append, List.foldl_cons, hskip]
  show (generateCoreState inp.sectionId inp.sectionName inp.subjects inp.facultySubjects
      inp.lectureClassrooms inp.labClassrooms inp.tutorialClassrooms
      (seedAll inp.existingTimetable) (rand.days daysOfWeek)
      (fun n => rand.times n startTimesBase) rand.batches).entries =
    (generateCoreState inp.sectionId inp.sectionName inp.subjects inp.facultySubjects
      inp.lectureClassrooms inp.labClassrooms inp.tutorialClassrooms
      (seedAll (l1 ++ l2)) (rand.days daysOfWeek)
      (fun n => rand.times n startTimesBase) rand.batches).entries
  rw [hsplit, hseed]

/-! ### Witnesses instantiating the claim theorems on concrete runs -/

/-- Witness for C1: in the `inpW1` run the generated lecture (Monday
09:00–10:00) does not overlap the parsed existing Monday 08:00–09:00
booking of the same faculty. -/
theorem c1_witness : ¬ slotsOverlap (eStart eW1) (eEnd eW1) 0 1 :=
  (c1_no_cross_booking inpW1 idRand).2 eW1 (by decide) oldY (by decide) 0 1
    (by decide) rfl (Or.inl rfl)

/-- Witness for C2: with the failing subjects read, the issued mutations
are exactly the initial delete and the outcome is an error. -/
theorem c2_witness : (mutationFn 1 rBad idRand).1 = [DBOp.deleteSection 1] ∧
    isErr (mutationFn 1 rBad idRand).2 = true :=
  c2_read_failure_after_delete 1 rBad idRand (Or.inr (Or.inl rfl))

/-- Witness for C3: a run compared with itself under identical shuffle
outcomes. -/
theorem c3_witness : generateTimetable inpC3 idRand = generateTimetable inpC3 idRand :=
  c3_determinism_given_shuffles inpC3 idRand idRand rfl (fun _ => rfl) (fun _ _ => rfl)

/-- Witness for C4: the third lab of the `inpW2` run (13:00–15:00) avoids
the break slot. -/
theorem c4_witness : ¬ (eStart eLab3 ≤ BREAK_START ∧ BREAK_START < eEnd eLab3) :=
  c4_break_exclusion inpW2 idRand eLab3 (by decide)

/-- Witness for C5: the first lab of the `inpW2` run spans two slots. -/
theorem c5_witness : eEnd eLab1 = eStart eLab1 + 2 :=
  (c5_duration_law inpW2 idRand eLab1 (by decide)).1 rfl

/-- Witness for C7: the first lab of the `inpW2` run carries a batch
number from {1, 2, 3}. -/
theorem c7_witness : eLab1.batch_number = some 1 ∨ eLab1.batch_number = some 2 ∨
    eLab1.batch_number = some 3 :=
  (c7_batch_tagging inpW2 idRand (fun _ _ _ hb => hb) eLab1 (by decide)).2 (Or.inl rfl)

/-- Witness for C10: the unparseable 17:00–18:00 entry adds no busy mark
and removing it leaves the run's output unchanged. -/
theorem c10_witness : seedEntry emptySched oldX = emptySched ∧
    generateTimetable inpW3 idRand =
      generateTimetable { inpW3 with existingTimetable := [] ++ [] } idRand :=
  ⟨(c10_unparsed_entry_ignored inpW3 idRand oldX [] [] rfl (Or.inr (by decide))).1
      emptySched,
    (c10_unparsed_entry_ignored inpW3 idRand oldX [] [] rfl (Or.inr (by decide))).2⟩
